import Mathlib

/-!
Verification development for an autoscaling reinforcement-learning
controller.  Python floats are embedded as exact rationals (`ℚ`); numpy
arrays of action values as `List ℚ`; Python dicts used as Q-tables as
functions into `Option`.  Each definition is a direct translation of the
named source function.
-/

namespace Autoscale

/-- Python `int(x)` truncation toward zero on a rational. -/
def intTrunc (q : ℚ) : ℤ :=
  if 0 ≤ q then ⌊q⌋ else ⌈q⌉

/-- Python `round(x)`: round half to even (banker's rounding). -/
def pyRound (q : ℚ) : ℤ :=
  if q - ⌊q⌋ = 1/2 then (if Even ⌊q⌋ then ⌊q⌋ else ⌊q⌋ + 1) else round q

/-- `np.max` over a value vector (source arrays are nonempty; `[]` maps to 0). -/
def listMax : List ℚ → ℚ
  | [] => 0
  | x :: xs => xs.foldl max x

/-- `np.argmax` over a value vector: index of the first maximal element. -/
def argmaxIdx : List ℚ → ℕ
  | [] => 0
  | [_] => 0
  | x :: y :: rest =>
      if x < listMax (y :: rest) then argmaxIdx (y :: rest) + 1 else 0

/-! ## Fuzzy inference engine (src/rl/fuzzy.py, class `Fuzzy`) -/

/-- `_trapezoidal(x, a, b, c, d)` from `Fuzzy.__init__`. -/
def trapezoidal (x a b c d : ℚ) : ℚ :=
  if x < a ∨ x > d then 0
  else if b ≤ x ∧ x ≤ c then 1
  else if a < x ∧ x < b then (if b - a ≠ 0 then (x - a) / (b - a) else 0)
  else (if d - c ≠ 0 then (d - x) / (d - c) else 0)

/-- Membership degrees of one metric for the five linguistic labels. -/
structure FuzzySet where
  very_low : ℚ
  low : ℚ
  medium : ℚ
  high : ℚ
  very_high : ℚ
deriving DecidableEq, Repr

/-- The `cpu_usage` membership functions (identical for `memory_usage`). -/
def cpuMembership (x : ℚ) : FuzzySet :=
  ⟨trapezoidal x 0 0 10 25, trapezoidal x 15 25 35 45, trapezoidal x 40 50 60 70,
   trapezoidal x 65 75 85 90, trapezoidal x 85 95 100 100⟩

/-- The `response_time` membership functions. -/
def respMembership (x : ℚ) : FuzzySet :=
  ⟨trapezoidal x 0 0 10 25, trapezoidal x 20 30 45 55, trapezoidal x 50 60 70 80,
   trapezoidal x 75 85 90 95, trapezoidal x 90 95 100 100⟩

/-- Result of `Fuzzy.fuzzify`: per-metric label degrees. -/
structure FuzzyState where
  cpu_usage : FuzzySet
  memory_usage : FuzzySet
  response_time : FuzzySet
deriving DecidableEq, Repr

/-- `Fuzzy.fuzzify` on the three metrics the membership table covers. -/
def fuzzify (cpu mem resp : ℚ) : FuzzyState :=
  ⟨cpuMembership cpu, cpuMembership mem, respMembership resp⟩

/-- The three action memberships returned by `Fuzzy.apply_rules`. -/
structure ActMemberships where
  scale_up : ℚ
  scale_down : ℚ
  no_change : ℚ
deriving DecidableEq, Repr

/-- The `scale_up` rule strength computed inside `Fuzzy.apply_rules`. -/
def scaleUpRaw (fz : FuzzyState) : ℚ :=
  let cpu := fz.cpu_usage
  let mem := fz.memory_usage
  let resp := fz.response_time
  max (max resp.high resp.medium * 1)
    (max (min (max cpu.high mem.high) (max resp.medium resp.high) * (9/10))
      (max (max cpu.very_high mem.very_high * 1)
        (max (min cpu.medium (min mem.medium resp.high) * (85/100))
          (max cpu.high mem.high * resp.medium * (8/10)))))

/-- The `scale_down` rule strength computed inside `Fuzzy.apply_rules`. -/
def scaleDownRaw (fz : FuzzyState) : ℚ :=
  let cpu := fz.cpu_usage
  let mem := fz.memory_usage
  let resp := fz.response_time
  max (min cpu.low (min mem.low resp.low) * 1)
    (max (min cpu.low (min mem.low resp.medium) * (9/10))
      (max (max cpu.very_low mem.very_low * resp.low * 1)
        (min resp.very_low (max cpu.medium mem.medium) * (8/10))))

/-- The `no_change` rule strength computed inside `Fuzzy.apply_rules`. -/
def noChangeRaw (fz : FuzzyState) : ℚ :=
  let cpu := fz.cpu_usage
  let mem := fz.memory_usage
  let resp := fz.response_time
  max (min cpu.medium (min mem.medium resp.medium) * 1)
    (max (min cpu.high resp.low * (8/10))
      (max (min cpu.medium (min mem.medium resp.low) * (9/10))
        (max (min cpu.low (min mem.medium resp.medium) * (85/100))
          (min (max cpu.medium mem.medium) resp.medium * (8/10)))))

/-- `Fuzzy.apply_rules`: weighted max-of-min rule evaluation followed by
normalization with a `1e-6` term in the denominator. -/
def applyRules (fz : FuzzyState) : ActMemberships :=
  let total := scaleUpRaw fz + scaleDownRaw fz + noChangeRaw fz + 1/1000000
  ⟨scaleUpRaw fz / total, scaleDownRaw fz / total, noChangeRaw fz / total⟩

/-- `Fuzzy.influence`: direction weighted by hysteresis and confidence,
clipped to `[-1, 1]`. -/
def influence (act : ActMemberships) : ℚ :=
  let up := act.scale_up
  let down := act.scale_down
  let stay := act.no_change
  let total := up + down + stay + 1/1000000
  let direction := (up - down) / total
  let confidence := max up (max down stay)
  let neutrality := stay / total
  let hysteresis := 1 - (6/10) * neutrality
  max (-1) (min 1 (direction * hysteresis * confidence))

end Autoscale

namespace Autoscale

/-! ## Tabular Q-learning policy (src/rl/q_learning.py, class `QLearning`) -/

/-- A policy observation.  `response_time` is `none` when the raw float is
NaN (the source checks `np.isnan`). -/
structure Obs where
  cpu_usage : ℚ
  memory_usage : ℚ
  response_time : Option ℚ
  last_action : ℚ
deriving DecidableEq, Repr

/-- Integer state key of `QLearning.get_state_key`. -/
abbrev StateKey := ℤ × ℤ × ℤ × ℤ

/-- A Q-table: Python dict mapping a state key to a value vector. -/
def QTable := StateKey → Option (List ℚ)

/-- `QLearning.get_state_key`: truncate metrics to ints, NaN response time
sanitized to 0. -/
def getStateKey (o : Obs) : StateKey :=
  (intTrunc o.cpu_usage, intTrunc o.memory_usage,
   (match o.response_time with
    | none => 0
    | some v => intTrunc v),
   intTrunc o.last_action)

/-- Lazy zero-initialization: `if key not in q_table: q_table[key] = np.zeros(n)`. -/
def lazyInit (Q : QTable) (k : StateKey) (n : ℕ) : QTable :=
  match Q k with
  | some _ => Q
  | none => fun x => if x = k then some (List.replicate n 0) else Q x

/-- Mutable state of a `QLearning` agent. -/
structure QLearning where
  n_actions : ℕ
  learning_rate : ℚ
  discount_factor : ℚ
  epsilon : ℚ
  epsilon_min : ℚ
  epsilon_decay : ℚ
  q_table : QTable

/-- `QLearning.get_action`.  The draw of `np.random.rand()` is passed in as
`r ∈ [0,1)` and the draw of `np.random.randint(0, n_actions)` as `randIdx`;
returns the chosen action together with the table after lazy initialization. -/
def getAction (p : QLearning) (r : ℚ) (randIdx : ℕ) (o : Obs) : ℕ × QLearning :=
  let k := getStateKey o
  let Q1 := lazyInit p.q_table k p.n_actions
  let action := if r < p.epsilon then randIdx else argmaxIdx ((Q1 k).getD [])
  (action, { p with q_table := Q1 })

/-- `QLearning.update_q_table`: lazy-init both keys, apply the TD update at
index `a` of the current state's vector, then decay epsilon. -/
def updateQTable (p : QLearning) (o : Obs) (a : ℕ) (r : ℚ) (o2 : Obs) : QLearning :=
  let k := getStateKey o
  let k2 := getStateKey o2
  let Q1 := lazyInit p.q_table k p.n_actions
  let Q2 := lazyInit Q1 k2 p.n_actions
  let bestNext := listMax ((Q2 k2).getD [])
  let v := (Q2 k).getD []
  let oldVal := v.getD a 0
  let newVec := v.set a (oldVal + p.learning_rate * (r + p.discount_factor * bestNext - oldVal))
  let Q3 : QTable := fun x => if x = k then some newVec else Q2 x
  let eps :=
    if p.epsilon > p.epsilon_min then max p.epsilon_min (p.epsilon * p.epsilon_decay)
    else p.epsilon
  { p with q_table := Q3, epsilon := eps }

/-! ## Fuzzy-hybrid policy (src/rl/q_learning_fuzzy.py, class `QLearningFuzzy`) -/

/-- Linguistic labels of the fuzzy membership dictionaries, in the
insertion order of `Fuzzy.__init__`. -/
inductive Label where
  | very_low
  | low
  | medium
  | high
  | very_high
deriving DecidableEq, Repr

/-- Python `max(d, key=d.get)` over a five-label membership dict: the first
label (in insertion order) holding the maximal degree. -/
def maxLabel (fs : FuzzySet) : Label :=
  let step := fun (best : Label × ℚ) (cand : Label × ℚ) =>
    if cand.2 > best.2 then cand else best
  (step (step (step (step (Label.very_low, fs.very_low) (Label.low, fs.low))
    (Label.medium, fs.medium)) (Label.high, fs.high)) (Label.very_high, fs.very_high)).1

/-- Categorical state key of `QLearningFuzzy.get_state_key`. -/
abbrev FStateKey := Label × Label × Label

/-- A fuzzy-keyed Q-table. -/
def FQTable := FStateKey → Option (List ℚ)

/-- `QLearningFuzzy.get_state_key`: sanitize NaN response time to 0,
truncate it to int, fuzzify, and take the dominant label per metric. -/
def getStateKeyF (o : Obs) : FStateKey :=
  let rt : ℚ :=
    (match o.response_time with
     | none => ((0 : ℤ) : ℚ)
     | some v => ((intTrunc v : ℤ) : ℚ))
  let fz := fuzzify o.cpu_usage o.memory_usage rt
  (maxLabel fz.cpu_usage, maxLabel fz.memory_usage, maxLabel fz.response_time)

/-- `if key not in q_table: q_table[key] = np.zeros(n)` for the fuzzy table. -/
def lazyInitF (Q : FQTable) (k : FStateKey) (n : ℕ) : FQTable :=
  match Q k with
  | some _ => Q
  | none => fun x => if x = k then some (List.replicate n 0) else Q x

/-- Mutable state of a `QLearningFuzzy` agent. -/
structure QLearningFuzzy where
  n_actions : ℕ
  learning_rate : ℚ
  discount_factor : ℚ
  epsilon : ℚ
  epsilon_min : ℚ
  epsilon_decay : ℚ
  q_table : FQTable

/-- `QLearningFuzzy.get_action`: identical epsilon-greedy selection as the
tabular agent, on the categorical key.  `r` is the `np.random.rand()` draw,
`randIdx` the `np.random.randint(0, n_actions)` draw. -/
def getActionF (p : QLearningFuzzy) (r : ℚ) (randIdx : ℕ) (o : Obs) : ℕ × QLearningFuzzy :=
  let k := getStateKeyF o
  let Q1 := lazyInitF p.q_table k p.n_actions
  let action := if r < p.epsilon then randIdx else argmaxIdx ((Q1 k).getD [])
  (action, { p with q_table := Q1 })

end Autoscale

namespace Autoscale

/-! ## Environment controller (src/environment/environment.py, class `KubernetesEnv`) -/

/-- Constructor configuration of `KubernetesEnv` relevant to reward and
replica mapping. -/
structure EnvConfig where
  min_replicas : ℤ
  max_replicas : ℤ
  min_cpu : ℚ
  max_cpu : ℚ
  min_memory : ℚ
  max_memory : ℚ
  max_response_time : ℚ
  response_time_weight : ℚ
  cpu_memory_weight : ℚ
  cost_weight : ℚ
deriving DecidableEq, Repr

/-- `self.range_replicas = max(1, max_replicas - min_replicas)`. -/
def rangeReplicas (cfg : EnvConfig) : ℤ :=
  max 1 (cfg.max_replicas - cfg.min_replicas)

/-- `KubernetesEnv._calculate_reward`: penalties for response time beyond
the SLA, CPU/memory out of bounds and replica cost, combined into a reward
clamped to `[-1, 1]`. -/
def calculateReward (cfg : EnvConfig) (cpu mem respTime : ℚ) (replicaState : ℤ) : ℚ :=
  let respPct := respTime / cfg.max_response_time * 100
  let cpuPen :=
    if cpu < cfg.min_cpu then (cfg.min_cpu - cpu) / cfg.min_cpu
    else if cpu > cfg.max_cpu then (cpu - cfg.max_cpu) / (100 - cfg.max_cpu)
    else 0
  let memPen :=
    if mem < cfg.min_memory then (cfg.min_memory - mem) / cfg.min_memory
    else if mem > cfg.max_memory then (mem - cfg.max_memory) / (100 - cfg.max_memory)
    else 0
  let respPen := min cfg.response_time_weight (max 0 ((respPct - 100) / 100))
  let cpuMemPen := cfg.cpu_memory_weight * (cpuPen + memPen)
  let costPen := cfg.cost_weight * ((replicaState : ℚ) - (cfg.min_replicas : ℚ)) / (rangeReplicas cfg : ℚ)
  let reward := 1 - respPen - cpuMemPen - costPen
  max (min reward 1) (-1)

/-- The replica-state computation of `KubernetesEnv.step`:
`percentage = action/99.0 if len(action_space) > 1 else 0.0`, then
`clamp(round(min_replicas + percentage * range_replicas))`.
`spaceLen` is `len(self.action_space)`, which the constructor fixes at 100. -/
def stepReplicaState (cfg : EnvConfig) (spaceLen : ℕ) (action : ℕ) : ℤ :=
  let percentage : ℚ := if spaceLen > 1 then (action : ℚ) / 99 else 0
  let r := pyRound ((cfg.min_replicas : ℚ) + percentage * (rangeReplicas cfg : ℚ))
  max cfg.min_replicas (min r cfg.max_replicas)

/-- Outcome of one `_scale` call: how many actuation attempts ran, whether
one succeeded, the replica state (never modified by `_scale`), and the
(timeout, delay) schedule of the attempts that ran, in order. -/
structure ScaleResult where
  attempts : ℕ
  succeeded : Bool
  replicaState : ℤ
  schedule : List (ℚ × ℚ)
deriving DecidableEq, Repr

/-- The retry loop of `KubernetesEnv._scale`.  `ok k` tells whether the
`patch_namespaced_deployment_scale` call of attempt `k` (1-based) succeeds;
every failure (API error of any status, or any other exception) is caught
inside the loop.  `remaining` is `max_scaling_retries - attempt`. -/
def scaleAux (ok : ℕ → Bool) (replicaState : ℤ) (attempt : ℕ) : ℕ → ScaleResult
  | 0 => ⟨attempt, false, replicaState, []⟩
  | remaining + 1 =>
      let a := attempt + 1
      let tmo : ℚ := min (60 * (3/2) ^ (a - 1)) 300
      let dly : ℚ := min (1 * 2 ^ (a - 1)) 30
      if ok a then ⟨a, true, replicaState, [(tmo, dly)]⟩
      else
        let rest := scaleAux ok replicaState a remaining
        ⟨rest.attempts, rest.succeeded, rest.replicaState, (tmo, dly) :: rest.schedule⟩

/-- `KubernetesEnv._scale`: the `while attempt < self.max_scaling_retries`
loop; on exhaustion it logs at critical severity and returns normally. -/
def scale (ok : ℕ → Bool) (replicaState : ℤ) (maxScalingRetries : ℕ) : ScaleResult :=
  scaleAux ok replicaState 0 maxScalingRetries

/-! ## Checkpoint persistence (src/rl/q_learning.py, save_model / load_model) -/

/-- The serialized record written by `QLearning.save_model`. -/
structure Checkpoint where
  q_table : QTable
  learning_rate : ℚ
  discount_factor : ℚ
  epsilon : ℚ
  epsilon_min : ℚ
  epsilon_decay : ℚ
  n_actions : ℕ
  created_at : ℤ
  episodes_trained : ℕ

/-- `QLearning.save_model(filepath, episode_count)`: the pickled
`model_data` dict. -/
def saveModel (p : QLearning) (createdAt : ℤ) (episodeCount : ℕ) : Checkpoint :=
  ⟨p.q_table, p.learning_rate, p.discount_factor, p.epsilon, p.epsilon_min,
   p.epsilon_decay, p.n_actions, createdAt, episodeCount⟩

/-- `QLearning.load_model(filepath)`: `file` is `none` when
`Path(filepath).exists()` is false, in which case a `FileNotFoundError`
is raised (modelled as `Except.error`); otherwise every field of the
unpickled record replaces the agent's. -/
def loadModel (p : QLearning) (file : Option Checkpoint) : Except String QLearning :=
  match file with
  | none => Except.error ("Model file not found")
  | some c =>
      Except.ok
        { p with
          q_table := c.q_table
          learning_rate := c.learning_rate
          discount_factor := c.discount_factor
          epsilon := c.epsilon
          epsilon_min := c.epsilon_min
          epsilon_decay := c.epsilon_decay
          n_actions := c.n_actions }

end Autoscale

namespace Autoscale

/-! ## Spec-side designs absent from the source

The specification describes two behaviors that no function in the source
implements: an adaptive `cost_factor` inside the reward, and a blended
continuous action distribution inside the fuzzy-hybrid `get_action`.
They are modelled here from the spec's own words so the corresponding
claims can be compared against the code. -/

/-- Modelled from the spec: the reward of §4.4's formula block with the
adaptive `cost_factor` (0.5 / 1.5 / 1.0 branches on `resp_pct` and
`replica_ratio`), which `KubernetesEnv._calculate_reward` does not contain.
All other penalty terms follow the source. -/
def specAdaptiveReward (cfg : EnvConfig) (cpu mem respTime : ℚ) (replicaState : ℤ) : ℚ :=
  let respPct := respTime / cfg.max_response_time * 100
  let cpuPen :=
    if cpu < cfg.min_cpu then (cfg.min_cpu - cpu) / cfg.min_cpu
    else if cpu > cfg.max_cpu then (cpu - cfg.max_cpu) / (100 - cfg.max_cpu)
    else 0
  let memPen :=
    if mem < cfg.min_memory then (cfg.min_memory - mem) / cfg.min_memory
    else if mem > cfg.max_memory then (mem - cfg.max_memory) / (100 - cfg.max_memory)
    else 0
  let respPen := min cfg.response_time_weight (max 0 ((respPct - 100) / 100))
  let cpuMemPen := cfg.cpu_memory_weight * (cpuPen + memPen)
  let replicaRat := ((replicaState : ℚ) - (cfg.min_replicas : ℚ)) / (rangeReplicas cfg : ℚ)
  let costFactor : ℚ :=
    if respPct > 100 ∧ replicaRat > 6/10 then 1/2
    else if respPct > 100 ∧ replicaRat < 3/10 then 3/2
    else 1
  let costPen := cfg.cost_weight * costFactor * replicaRat
  let reward := 1 - respPen - cpuMemPen - costPen
  max (min reward 1) (-1)

/-- `np.min` over a value vector (`[]` maps to 0). -/
def listMin : List ℚ → ℚ
  | [] => 0
  | x :: xs => xs.foldl min x

/-- Modelled from the spec: min-max normalization of a stored Q-vector into
a probability-like distribution, with uniform fallback when
`max - min < 1e-8` (§4.4), absent from `QLearningFuzzy.get_action`. -/
def specQDist (q : List ℚ) (n : ℕ) (i : ℕ) : ℚ :=
  if listMax q - listMin q < 1/100000000 then 1 / (n : ℚ)
  else (q.getD i 0 - listMin q) / (listMax q - listMin q)

/-- Modelled from the spec: the preferred action-index center
`(influence + 1)/2 * (n_actions - 1)` (§4.4). -/
def specCenter (infl : ℚ) (n : ℕ) : ℚ :=
  (infl + 1) / 2 * ((n : ℚ) - 1)

/-- Modelled from the spec: the Gaussian preference shape over action
indices around `center` with bandwidth `σ` (§4.4). -/
noncomputable def gaussShape (sigma center : ℝ) (i : ℕ) : ℝ :=
  Real.exp (-((i : ℝ) - center) ^ 2 / (2 * sigma ^ 2))

/-- Modelled from the spec: the Gaussian-shaped preference distribution of
§4.4, normalized over all `n` action indices. -/
noncomputable def specFuzzyDist (sigma center : ℝ) (n : ℕ) (i : ℕ) : ℝ :=
  gaussShape sigma center i / ∑ j ∈ Finset.range n, gaussShape sigma center j

/-- Modelled from the spec: the unnormalized blend
`(1 - w) * Q_dist + w * fuzzy_dist` of §4.4. -/
noncomputable def specCombinedRaw (w sigma center : ℝ) (q : List ℚ) (n : ℕ) (i : ℕ) : ℝ :=
  (1 - w) * (specQDist q n i : ℝ) + w * specFuzzyDist sigma center n i

/-- Modelled from the spec: the renormalized combined distribution of §4.4,
whose argmax the canonical blended `get_action` would return in the
non-exploring branch. -/
noncomputable def specCombined (w sigma center : ℝ) (q : List ℚ) (n : ℕ) (i : ℕ) : ℝ :=
  specCombinedRaw w sigma center q n i / ∑ j ∈ Finset.range n, specCombinedRaw w sigma center q n j

end Autoscale

namespace Autoscale

/-! ## Helper lemmas -/

lemma pyRound_le (q : ℚ) : (pyRound q : ℚ) ≤ q + 1/2 := by
  unfold pyRound
  split_ifs with h1 h2
  · have := Int.floor_le q
    linarith
  · push_cast
    linarith
  · rw [round_eq]
    have := Int.floor_le (q + 1/2)
    push_cast at this ⊢
    linarith

lemma le_pyRound (q : ℚ) : q - 1/2 ≤ (pyRound q : ℚ) := by
  unfold pyRound
  split_ifs with h1 h2
  · linarith
  · push_cast
    linarith
  · rw [round_eq]
    have := Int.sub_one_lt_floor (q + 1/2)
    push_cast at this ⊢
    linarith

lemma lazyInit_self (Q : QTable) (k : StateKey) (n : ℕ) :
    lazyInit Q k n k = some ((Q k).getD (List.replicate n 0)) := by
  unfold lazyInit
  cases h : Q k with
  | none => simp [h]
  | some v => simp [h]

lemma lazyInit_other (Q : QTable) (k x : StateKey) (n : ℕ) (hx : x ≠ k) :
    lazyInit Q k n x = Q x := by
  unfold lazyInit
  cases h : Q k with
  | none => simp [hx]
  | some v => rfl

lemma lazyInitF_self (Q : FQTable) (k : FStateKey) (n : ℕ) :
    lazyInitF Q k n k = some ((Q k).getD (List.replicate n 0)) := by
  unfold lazyInitF
  cases h : Q k with
  | none => simp [h]
  | some v => simp [h]

lemma lazyInitF_other (Q : FQTable) (k x : FStateKey) (n : ℕ) (hx : x ≠ k) :
    lazyInitF Q k n x = Q x := by
  unfold lazyInitF
  cases h : Q k with
  | none => simp [hx]
  | some v => rfl

/-! ## C3 -/

/-- Claim C3: for every real-valued input (cpu, memory, response time,
replica state) and every configuration, the reward returned by
`KubernetesEnv._calculate_reward` lies in the closed interval `[-1, 1]`
(the source clamps the combined penalty expression to these bounds). -/
theorem reward_bounded (cfg : EnvConfig) (cpu mem respTime : ℚ) (replicaState : ℤ) :
    -1 ≤ calculateReward cfg cpu mem respTime replicaState ∧
    calculateReward cfg cpu mem respTime replicaState ≤ 1 := by
  unfold calculateReward
  exact ⟨le_max_right _ _, max_le (min_le_right _ _) (by norm_num)⟩

end Autoscale

namespace Autoscale

/-! ## C2 -/

/-- The environment configuration used for the C2 comparison:
`min_replicas = 1`, `max_replicas = 11`, default bounds and weights of the
`KubernetesEnv` constructor. -/
def cfgEleven : EnvConfig := ⟨1, 11, 20, 90, 20, 90, 100, 1, 1/2, 3/10⟩

/-- Claim C2 counterexample: at cpu = 50, memory = 50, response_time = 200
(resp_pct = 200 > 100) and replica_state = 9 (replica_ratio = 0.8 > 0.6),
`_calculate_reward` yields −6/25, while the claimed adaptive-cost-factor
formula yields −3/25 — the code contains no `cost_factor` branches. -/
theorem reward_cost_factor_counterexample :
    calculateReward cfgEleven 50 50 200 9 = -(6/25) ∧
    specAdaptiveReward cfgEleven 50 50 200 9 = -(3/25) ∧
    calculateReward cfgEleven 50 50 200 9 ≠ specAdaptiveReward cfgEleven 50 50 200 9 := by
  refine ⟨by norm_num [calculateReward, cfgEleven, rangeReplicas], by norm_num [specAdaptiveReward, cfgEleven, rangeReplicas], by norm_num [calculateReward, specAdaptiveReward, cfgEleven, rangeReplicas]⟩

/-- Modelled from the spec: the §4.4 reward formula with the adaptive
`cost_factor` generalized to an explicit parameter, for comparison of the
code against the spec's branches. -/
def specRewardWithFactor (cfg : EnvConfig) (costFactor : ℚ) (cpu mem respTime : ℚ) (replicaState : ℤ) : ℚ :=
  let respPct := respTime / cfg.max_response_time * 100
  let cpuPen :=
    if cpu < cfg.min_cpu then (cfg.min_cpu - cpu) / cfg.min_cpu
    else if cpu > cfg.max_cpu then (cpu - cfg.max_cpu) / (100 - cfg.max_cpu)
    else 0
  let memPen :=
    if mem < cfg.min_memory then (cfg.min_memory - mem) / cfg.min_memory
    else if mem > cfg.max_memory then (mem - cfg.max_memory) / (100 - cfg.max_memory)
    else 0
  let respPen := min cfg.response_time_weight (max 0 ((respPct - 100) / 100))
  let cpuMemPen := cfg.cpu_memory_weight * (cpuPen + memPen)
  let replicaRat := ((replicaState : ℚ) - (cfg.min_replicas : ℚ)) / (rangeReplicas cfg : ℚ)
  let costPen := cfg.cost_weight * costFactor * replicaRat
  let reward := 1 - respPen - cpuMemPen - costPen
  max (min reward 1) (-1)

/-- Claim C2 amended: `_calculate_reward` applies the plain cost penalty
`cost_weight * replica_ratio`, i.e. the spec's formula with `cost_factor`
identically 1; no adaptive 0.5/1.5 branch exists in the code. -/
theorem reward_cost_factor_is_one (cfg : EnvConfig) (cpu mem respTime : ℚ) (replicaState : ℤ) :
    calculateReward cfg cpu mem respTime replicaState =
    specRewardWithFactor cfg 1 cpu mem respTime replicaState := by
  unfold calculateReward specRewardWithFactor
  ring_nf

end Autoscale

namespace Autoscale

/-! ## C9 -/

/-- Claim C9 counterexample: for the fuzzified state of
(cpu = 0, memory = 0, response_time = 100) every rule antecedent evaluates
to 0, so `apply_rules` returns (0, 0, 0): the three outputs sum to 0, not 1
(the `1e-6` term keeps the denominator positive but also keeps the sum
strictly below 1). -/
theorem apply_rules_sum_counterexample :
    (applyRules (fuzzify 0 0 100)).scale_up + (applyRules (fuzzify 0 0 100)).scale_down +
      (applyRules (fuzzify 0 0 100)).no_change = 0 ∧
    (applyRules (fuzzify 0 0 100)).scale_up + (applyRules (fuzzify 0 0 100)).scale_down +
      (applyRules (fuzzify 0 0 100)).no_change ≠ 1 := by
  constructor
  · norm_num [applyRules, scaleUpRaw, scaleDownRaw, noChangeRaw, fuzzify, cpuMembership, respMembership, trapezoidal]
  · norm_num [applyRules, scaleUpRaw, scaleDownRaw, noChangeRaw, fuzzify, cpuMembership, respMembership, trapezoidal]

end Autoscale

namespace Autoscale

/-- Trapezoidal membership degrees are non-negative whenever the upper
shoulder is ordered (`c ≤ d`), as in every membership table of the source. -/
lemma trapezoidal_nonneg (x a b c d : ℚ) (hcd : c ≤ d) : 0 ≤ trapezoidal x a b c d := by
  unfold trapezoidal
  split_ifs with h1 h2 h3 h4 h5
  · exact le_refl 0
  · norm_num
  · exact div_nonneg (by linarith [h3.1]) (by linarith [h3.1, h3.2])
  · exact le_refl 0
  · push_neg at h1
    have hxd : x ≤ d := h1.2
    have : c < d := lt_of_le_of_ne hcd (fun h => h5 (by rw [h]; ring))
    exact div_nonneg (by linarith) (by linarith)
  · exact le_refl 0

/-- All five degrees of a membership set are non-negative. -/
def FuzzySet.Nonneg (fs : FuzzySet) : Prop :=
  0 ≤ fs.very_low ∧ 0 ≤ fs.low ∧ 0 ≤ fs.medium ∧ 0 ≤ fs.high ∧ 0 ≤ fs.very_high

lemma cpuMembership_nonneg (x : ℚ) : (cpuMembership x).Nonneg :=
  ⟨trapezoidal_nonneg x 0 0 10 25 (by norm_num),
   trapezoidal_nonneg x 15 25 35 45 (by norm_num),
   trapezoidal_nonneg x 40 50 60 70 (by norm_num),
   trapezoidal_nonneg x 65 75 85 90 (by norm_num),
   trapezoidal_nonneg x 85 95 100 100 (by norm_num)⟩

lemma respMembership_nonneg (x : ℚ) : (respMembership x).Nonneg :=
  ⟨trapezoidal_nonneg x 0 0 10 25 (by norm_num),
   trapezoidal_nonneg x 20 30 45 55 (by norm_num),
   trapezoidal_nonneg x 50 60 70 80 (by norm_num),
   trapezoidal_nonneg x 75 85 90 95 (by norm_num),
   trapezoidal_nonneg x 90 95 100 100 (by norm_num)⟩

lemma scaleUpRaw_nonneg (fz : FuzzyState) (hr : fz.response_time.Nonneg) :
    0 ≤ scaleUpRaw fz := by
  unfold scaleUpRaw
  exact le_max_of_le_left (mul_nonneg (le_max_of_le_left hr.2.2.2.1) (by norm_num))

lemma scaleDownRaw_nonneg (fz : FuzzyState) (hc : fz.cpu_usage.Nonneg)
    (hm : fz.memory_usage.Nonneg) (hr : fz.response_time.Nonneg) :
    0 ≤ scaleDownRaw fz := by
  unfold scaleDownRaw
  exact le_max_of_le_left (mul_nonneg (le_min hc.2.1 (le_min hm.2.1 hr.2.1)) (by norm_num))

lemma noChangeRaw_nonneg (fz : FuzzyState) (hc : fz.cpu_usage.Nonneg)
    (hm : fz.memory_usage.Nonneg) (hr : fz.response_time.Nonneg) :
    0 ≤ noChangeRaw fz := by
  unfold noChangeRaw
  exact le_max_of_le_left
    (mul_nonneg (le_min hc.2.2.1 (le_min hm.2.2.1 hr.2.2.1)) (by norm_num))

/-- Claim C9 amended: for every fuzzified state, `apply_rules` returns
three non-negative action-membership values, the normalization denominator
includes the `1e-6` epsilon so no division by zero occurs, and the three
outputs sum to `S / (S + 1e-6)` — strictly less than 1, not exactly 1. -/
theorem apply_rules_outputs (cpu mem resp : ℚ) :
    0 ≤ (applyRules (fuzzify cpu mem resp)).scale_up ∧
    0 ≤ (applyRules (fuzzify cpu mem resp)).scale_down ∧
    0 ≤ (applyRules (fuzzify cpu mem resp)).no_change ∧
    (applyRules (fuzzify cpu mem resp)).scale_up + (applyRules (fuzzify cpu mem resp)).scale_down +
        (applyRules (fuzzify cpu mem resp)).no_change =
      (scaleUpRaw (fuzzify cpu mem resp) + scaleDownRaw (fuzzify cpu mem resp) +
          noChangeRaw (fuzzify cpu mem resp)) /
        (scaleUpRaw (fuzzify cpu mem resp) + scaleDownRaw (fuzzify cpu mem resp) +
          noChangeRaw (fuzzify cpu mem resp) + 1/1000000) ∧
    (applyRules (fuzzify cpu mem resp)).scale_up + (applyRules (fuzzify cpu mem resp)).scale_down +
        (applyRules (fuzzify cpu mem resp)).no_change < 1 := by
  have hc := cpuMembership_nonneg cpu
  have hm := cpuMembership_nonneg mem
  have hr := respMembership_nonneg resp
  have hup : 0 ≤ scaleUpRaw (fuzzify cpu mem resp) := scaleUpRaw_nonneg _ hr
  have hdown : 0 ≤ scaleDownRaw (fuzzify cpu mem resp) := scaleDownRaw_nonneg _ hc hm hr
  have hstay : 0 ≤ noChangeRaw (fuzzify cpu mem resp) := noChangeRaw_nonneg _ hc hm hr
  have htot : (0:ℚ) < scaleUpRaw (fuzzify cpu mem resp) + scaleDownRaw (fuzzify cpu mem resp) +
      noChangeRaw (fuzzify cpu mem resp) + 1/1000000 := by linarith
  unfold applyRules
  refine ⟨div_nonneg hup (le_of_lt htot), div_nonneg hdown (le_of_lt htot),
    div_nonneg hstay (le_of_lt htot), ?_, ?_⟩
  · rw [div_add_div_same, div_add_div_same]
  · rw [div_add_div_same, div_add_div_same]
    exact (div_lt_one htot).2 (by linarith)

end Autoscale

namespace Autoscale

lemma pyRound_intCast (z : ℤ) : pyRound (z : ℚ) = z := by
  unfold pyRound
  rw [Int.floor_intCast, sub_self, if_neg (by norm_num)]
  exact round_intCast z

/-- The environment configuration with `min_replicas = 1`,
`max_replicas = 10` named by the claim's concrete instances. -/
def cfgTen : EnvConfig := ⟨1, 10, 20, 90, 20, 90, 100, 1, 1/2, 3/10⟩

/-- Claim C4: with the constructor's 100-element action space, `step` maps
action `a ∈ [0, 99]` to
`clamp(round(min_replicas + (a/99)·(max_replicas − min_replicas)), min_replicas, max_replicas)`
(the code multiplies by `range_replicas = max(1, max−min)` but the clamp
makes both readings agree); with a single-element action space the
percentage degenerates to 0; and with min=1, max=10: action 0 ↦ 1,
action 99 ↦ 10, action 49 ↦ 5. -/
theorem step_replica_mapping :
    (∀ (cfg : EnvConfig) (a : ℕ), a ≤ 99 →
      stepReplicaState cfg 100 a =
        max cfg.min_replicas
          (min (pyRound ((cfg.min_replicas : ℚ) +
            (a : ℚ) / 99 * ((cfg.max_replicas : ℚ) - (cfg.min_replicas : ℚ))))
            cfg.max_replicas)) ∧
    (∀ (cfg : EnvConfig) (a : ℕ),
      stepReplicaState cfg 1 a =
        max cfg.min_replicas (min cfg.min_replicas cfg.max_replicas)) ∧
    stepReplicaState cfgTen 100 0 = 1 ∧
    stepReplicaState cfgTen 100 99 = 10 ∧
    stepReplicaState cfgTen 100 49 = 5 := by
  refine ⟨?_, ?_, ?_, ?_, ?_⟩
  · intro cfg a _
    rcases le_or_lt 1 (cfg.max_replicas - cfg.min_replicas) with hd | hd
    · simp only [stepReplicaState, rangeReplicas]
      rw [if_pos (by norm_num : (100:ℕ) > 1), max_eq_right hd]
      have hcast : ((cfg.max_replicas - cfg.min_replicas : ℤ) : ℚ) =
          (cfg.max_replicas : ℚ) - (cfg.min_replicas : ℚ) := by push_cast; ring
      rw [hcast]
    · have hmm : cfg.max_replicas ≤ cfg.min_replicas := by omega
      simp only [stepReplicaState, rangeReplicas]
      rw [if_pos (by norm_num : (100:ℕ) > 1)]
      omega
  · intro cfg a
    simp only [stepReplicaState]
    rw [if_neg (by norm_num : ¬ (1:ℕ) > 1)]
    simp [pyRound_intCast]
  · norm_num [stepReplicaState, cfgTen, rangeReplicas, pyRound, round_eq]
  · norm_num [stepReplicaState, cfgTen, rangeReplicas, pyRound, round_eq]
  · norm_num [stepReplicaState, cfgTen, rangeReplicas, pyRound, round_eq]

/-- Witness for C4: the general mapping theorem applied at action 7 of the
(1, 10) configuration. -/
theorem step_replica_mapping_witness :
    stepReplicaState cfgTen 100 7 =
      max cfgTen.min_replicas
        (min (pyRound ((cfgTen.min_replicas : ℚ) +
          (7 : ℚ) / 99 * ((cfgTen.max_replicas : ℚ) - (cfgTen.min_replicas : ℚ))))
          cfgTen.max_replicas) := by
  have h := step_replica_mapping.1 cfgTen 7 (by norm_num)
  simpa using h

end Autoscale

namespace Autoscale

/-! ## C5 and C10: the TD update -/

/-- The value vector a dict lookup yields after lazy zero-initialization. -/
def lookupVec (Q : QTable) (n : ℕ) (k : StateKey) : List ℚ :=
  (Q k).getD (List.replicate n 0)

lemma lazyInit_some (Q : QTable) (k2 : StateKey) (n : ℕ) (x : StateKey) (v : List ℚ)
    (h : Q x = some v) : lazyInit Q k2 n x = some v := by
  by_cases hx : x = k2
  · subst hx
    rw [lazyInit_self, h]
    rfl
  · rw [lazyInit_other _ _ _ _ hx]
    exact h

lemma lazyInit_none_iff (Q : QTable) (k : StateKey) (n : ℕ) (x : StateKey) :
    lazyInit Q k n x = none ↔ Q x = none ∧ x ≠ k := by
  by_cases hx : x = k
  · subst hx
    rw [lazyInit_self]
    simp
  · rw [lazyInit_other _ _ _ _ hx]
    simp [hx]

lemma double_lazyInit_fst (Q : QTable) (k k2 : StateKey) (n : ℕ) :
    lazyInit (lazyInit Q k n) k2 n k = some (lookupVec Q n k) :=
  lazyInit_some _ _ _ _ _ (lazyInit_self Q k n)

lemma double_lazyInit_snd (Q : QTable) (k k2 : StateKey) (n : ℕ) :
    lazyInit (lazyInit Q k n) k2 n k2 = some (lookupVec Q n k2) := by
  by_cases h : k2 = k
  · rw [h]
    exact double_lazyInit_fst Q k k n
  · rw [lazyInit_self, lazyInit_other Q k k2 n h]
    rfl

lemma double_lazyInit_other (Q : QTable) (k k2 x : StateKey) (n : ℕ)
    (h1 : x ≠ k) (h2 : x ≠ k2) :
    lazyInit (lazyInit Q k n) k2 n x = Q x := by
  rw [lazyInit_other _ _ _ _ h2, lazyInit_other _ _ _ _ h1]

/-- Claim C5: `update_q_table` lazily zero-initializes both state keys,
replaces `Q[s][a]` by `Q[s][a] + α·(r + γ·max(Q[s']) − Q[s][a])` where `s`
and `s'` are the keys of `obs` and `next_obs`, and afterwards decays ε to
`max(epsilon_min, ε·epsilon_decay)` exactly when `ε > epsilon_min`. -/
theorem update_q_rule (p : QLearning) (o : Obs) (a : ℕ) (r : ℚ) (o2 : Obs) :
    ((updateQTable p o a r o2).q_table (getStateKey o)).getD [] =
      (lookupVec p.q_table p.n_actions (getStateKey o)).set a
        ((lookupVec p.q_table p.n_actions (getStateKey o)).getD a 0 +
          p.learning_rate * (r + p.discount_factor *
            listMax (lookupVec p.q_table p.n_actions (getStateKey o2)) -
            (lookupVec p.q_table p.n_actions (getStateKey o)).getD a 0)) ∧
    (getStateKey o2 ≠ getStateKey o →
      (updateQTable p o a r o2).q_table (getStateKey o2) =
        some (lookupVec p.q_table p.n_actions (getStateKey o2))) ∧
    (updateQTable p o a r o2).epsilon =
      (if p.epsilon > p.epsilon_min then max p.epsilon_min (p.epsilon * p.epsilon_decay)
       else p.epsilon) := by
  have hk := double_lazyInit_fst p.q_table (getStateKey o) (getStateKey o2) p.n_actions
  have hk2 := double_lazyInit_snd p.q_table (getStateKey o) (getStateKey o2) p.n_actions
  refine ⟨?_, ?_, rfl⟩
  · simp only [updateQTable, hk, hk2, if_pos rfl]
    rfl
  · intro hne
    simp only [updateQTable, hk, hk2]
    rw [if_neg hne]

/-- Witness for C5: updating a concrete single-entry table at action 3 with
distinct current and next observations lazily initializes the next state's
entry with its original (absent, hence zero) vector. -/
theorem update_q_rule_witness :
    (updateQTable
        ⟨4, 1/2, 9/10, 1/5, 1/100, 99/100, fun k => if k = (1, 2, 3, 4) then some [1, 2, 3, 4] else none⟩
        ⟨1, 2, some 3, 4⟩ 3 (1/4) ⟨5, 6, some 7, 8⟩).q_table (getStateKey ⟨5, 6, some 7, 8⟩) =
      some (lookupVec (fun k => if k = (1, 2, 3, 4) then some [1, 2, 3, 4] else none) 4
        (getStateKey ⟨5, 6, some 7, 8⟩)) :=
  (update_q_rule
      ⟨4, 1/2, 9/10, 1/5, 1/100, 99/100, fun k => if k = (1, 2, 3, 4) then some [1, 2, 3, 4] else none⟩
      ⟨1, 2, some 3, 4⟩ 3 (1/4) ⟨5, 6, some 7, 8⟩).2.1
    (by norm_num [getStateKey, intTrunc])


/-- Claim C10: frame property of `update_q_table`.  Keys other than the
two state keys are untouched; no key is removed; the only keys added are
those of `obs` and `next_obs` (with all-zero vectors at initialization);
the entry of `next_obs`'s key keeps its original value when distinct from
`obs`'s key; and every index other than the updated action of
`Q[state_key(obs)]` keeps its lazily-initialized value. -/
theorem update_q_frame (p : QLearning) (o : Obs) (a : ℕ) (r : ℚ) (o2 : Obs) :
    (∀ x : StateKey, x ≠ getStateKey o → x ≠ getStateKey o2 →
      (updateQTable p o a r o2).q_table x = p.q_table x) ∧
    (∀ x : StateKey, p.q_table x ≠ none → (updateQTable p o a r o2).q_table x ≠ none) ∧
    (∀ x : StateKey, p.q_table x = none → (updateQTable p o a r o2).q_table x ≠ none →
      x = getStateKey o ∨ x = getStateKey o2) ∧
    (getStateKey o2 ≠ getStateKey o → p.q_table (getStateKey o2) = none →
      (updateQTable p o a r o2).q_table (getStateKey o2) =
        some (List.replicate p.n_actions 0)) ∧
    (∀ i : ℕ, i ≠ a →
      (((updateQTable p o a r o2).q_table (getStateKey o)).getD []).getD i 0 =
        (lookupVec p.q_table p.n_actions (getStateKey o)).getD i 0) := by
  have hk := double_lazyInit_fst p.q_table (getStateKey o) (getStateKey o2) p.n_actions
  have hk2 := double_lazyInit_snd p.q_table (getStateKey o) (getStateKey o2) p.n_actions
  refine ⟨?_, ?_, ?_, ?_, ?_⟩
  · intro x hx1 hx2
    simp only [updateQTable]
    rw [if_neg hx1]
    exact double_lazyInit_other p.q_table (getStateKey o) (getStateKey o2) x p.n_actions hx1 hx2
  · intro x hx
    simp only [updateQTable]
    by_cases h : x = getStateKey o
    · rw [if_pos h]
      simp
    · rw [if_neg h]
      intro hcon
      rw [lazyInit_none_iff] at hcon
      rw [lazyInit_none_iff] at hcon
      exact hx hcon.1.1
  · intro x hx hcon
    by_cases h : x = getStateKey o
    · exact Or.inl h
    · right
      by_contra h2
      apply hcon
      simp only [updateQTable]
      rw [if_neg h, lazyInit_none_iff, lazyInit_none_iff]
      exact ⟨⟨hx, h⟩, h2⟩
  · intro hne hnone
    simp only [updateQTable]
    rw [if_neg hne]
    rw [hk2]
    unfold lookupVec
    rw [hnone]
    rfl
  · intro i hi
    simp only [updateQTable, hk, hk2, eq_self_iff_true, if_true, Option.getD_some]
    rw [List.getD_eq_getElem?_getD, List.getD_eq_getElem?_getD,
      List.getElem?_set_ne (fun h => hi h.symm)]
    rw [List.getD_eq_getElem?_getD]

/-- Witness for C10: in a concrete update, an unrelated key's entry is
bit-for-bit unchanged and the unmodified index 0 keeps its value. -/
theorem update_q_frame_witness :
    (updateQTable
        ⟨4, 1/2, 9/10, 1/5, 1/100, 99/100, fun k => if k = (9, 9, 9, 9) then some [5, 6, 7, 8] else none⟩
        ⟨1, 2, some 3, 4⟩ 3 (1/4) ⟨5, 6, some 7, 8⟩).q_table (9, 9, 9, 9) =
      (fun k => if k = ((9 : ℤ), (9 : ℤ), (9 : ℤ), (9 : ℤ)) then some [(5:ℚ), 6, 7, 8] else none) (9, 9, 9, 9) ∧
    (((updateQTable
        ⟨4, 1/2, 9/10, 1/5, 1/100, 99/100, fun k => if k = (9, 9, 9, 9) then some [5, 6, 7, 8] else none⟩
        ⟨1, 2, some 3, 4⟩ 3 (1/4) ⟨5, 6, some 7, 8⟩).q_table (getStateKey ⟨1, 2, some 3, 4⟩)).getD []).getD 0 0 =
      (lookupVec (fun k => if k = (9, 9, 9, 9) then some [5, 6, 7, 8] else none) 4
        (getStateKey ⟨1, 2, some 3, 4⟩)).getD 0 0 :=
  ⟨(update_q_frame
      ⟨4, 1/2, 9/10, 1/5, 1/100, 99/100, fun k => if k = (9, 9, 9, 9) then some [5, 6, 7, 8] else none⟩
      ⟨1, 2, some 3, 4⟩ 3 (1/4) ⟨5, 6, some 7, 8⟩).1 (9, 9, 9, 9)
      (by norm_num [getStateKey, intTrunc]) (by norm_num [getStateKey, intTrunc]),
   (update_q_frame
      ⟨4, 1/2, 9/10, 1/5, 1/100, 99/100, fun k => if k = (9, 9, 9, 9) then some [5, 6, 7, 8] else none⟩
      ⟨1, 2, some 3, 4⟩ 3 (1/4) ⟨5, 6, some 7, 8⟩).2.2.2.2 0 (by norm_num)⟩


/-! ## C7: determinism of epsilon-greedy selection at epsilon = 0 -/

/-- Claim C7: with ε = 0 (and `np.random.rand()` draws in `[0, 1)`), two
successive `get_action` calls on the same observation return the same
action: the argmax (first maximal index) of the stored Q-vector for the
observation's state key, with an all-zero vector lazily inserted for an
unseen key. -/
theorem getAction_deterministic (p : QLearning) (r1 r2 : ℚ) (i1 i2 : ℕ) (o : Obs)
    (heps : p.epsilon = 0) (h1 : 0 ≤ r1) (h2 : 0 ≤ r2) :
    (getAction p r1 i1 o).1 = (getAction (getAction p r1 i1 o).2 r2 i2 o).1 ∧
    (getAction p r1 i1 o).1 =
      argmaxIdx ((p.q_table (getStateKey o)).getD (List.replicate p.n_actions 0)) ∧
    (getAction p r1 i1 o).2.q_table (getStateKey o) =
      some ((p.q_table (getStateKey o)).getD (List.replicate p.n_actions 0)) := by
  have hr1 : ¬ r1 < p.epsilon := by
    rw [heps]
    exact not_lt.2 h1
  have hr2 : ¬ r2 < p.epsilon := by
    rw [heps]
    exact not_lt.2 h2
  have hself := lazyInit_self p.q_table (getStateKey o) p.n_actions
  have hself2 := lazyInit_some (lazyInit p.q_table (getStateKey o) p.n_actions)
    (getStateKey o) p.n_actions (getStateKey o) _ hself
  refine ⟨?_, ?_, ?_⟩
  · simp only [getAction, hself, hself2, if_neg hr1, if_neg hr2, Option.getD_some]
  · simp only [getAction, hself, if_neg hr1, Option.getD_some]
  · simp only [getAction, hself]

/-- Witness for C7: a concrete two-call run with ε = 0, an empty table and
distinct random draws returns the argmax of the zero vector both times. -/
theorem getAction_deterministic_witness :
    (getAction ⟨4, 1/10, 9/10, 0, 1/100, 99/100, fun _ => none⟩ 0 3 ⟨1, 2, some 3, 4⟩).1 =
      (getAction (getAction ⟨4, 1/10, 9/10, 0, 1/100, 99/100, fun _ => none⟩ 0 3 ⟨1, 2, some 3, 4⟩).2
        (1/2) 9 ⟨1, 2, some 3, 4⟩).1 :=
  (getAction_deterministic ⟨4, 1/10, 9/10, 0, 1/100, 99/100, fun _ => none⟩ 0 (1/2) 3 9
    ⟨1, 2, some 3, 4⟩ rfl (by norm_num) (by norm_num)).1


/-! ## C6: retry exhaustion in the scaling loop -/

lemma scaleAux_all_fail (ok : ℕ → Bool) (rs : ℤ) (hfail : ∀ k, ok k = false) :
    ∀ (fuel attempt : ℕ),
      scaleAux ok rs attempt fuel =
        ⟨attempt + fuel, false, rs,
         (List.range fuel).map (fun j =>
           (min (60 * (3/2 : ℚ) ^ (attempt + j)) 300, min ((2 : ℚ) ^ (attempt + j)) 30))⟩ := by
  intro fuel
  induction fuel with
  | zero =>
      intro attempt
      simp [scaleAux]
  | succ m ih =>
      intro attempt
      simp only [scaleAux, hfail (attempt + 1), Bool.false_eq_true, if_false, ih (attempt + 1)]
      congr 1
      · omega
      · rw [List.range_succ_eq_map, List.map_cons, List.map_map]
        congr 1
        · norm_num
        · congr 1
          funext j
          have hj : attempt + 1 + j = attempt + (j + 1) := by omega
          simp [Function.comp, hj]

/-- Claim C6: when every actuation attempt fails, `_scale` performs exactly
`max_scaling_retries` attempts and returns normally (every exception is
caught inside the loop), leaves the replica state untouched, and attempt
`k+1` uses per-attempt timeout `min(60·1.5^k, 300)` and inter-attempt delay
`min(1·2^k, 30)`. -/
theorem scale_retry_exhaustion (ok : ℕ → Bool) (rs : ℤ) (N : ℕ)
    (hfail : ∀ k, ok k = false) :
    (scale ok rs N).attempts = N ∧
    (scale ok rs N).succeeded = false ∧
    (scale ok rs N).replicaState = rs ∧
    (scale ok rs N).schedule.length = N ∧
    (∀ k, k < N → (scale ok rs N).schedule.getD k (0, 0) =
      (min (60 * (3/2 : ℚ) ^ k) 300, min ((2 : ℚ) ^ k) 30)) := by
  unfold scale
  rw [scaleAux_all_fail ok rs hfail N 0]
  refine ⟨by simp, rfl, rfl, by simp, ?_⟩
  intro k hk
  rw [List.getD_eq_getElem?_getD, List.getElem?_map, List.getElem?_range hk]
  simp

/-- Witness for C6: three permanently failing attempts with
`max_scaling_retries = 3`; the third attempt's schedule entry matches the
backoff formulas. -/
theorem scale_retry_exhaustion_witness :
    (scale (fun _ => false) 5 3).attempts = 3 ∧
    (scale (fun _ => false) 5 3).schedule.getD 2 (0, 0) =
      (min (60 * (3/2 : ℚ) ^ 2) 300, min ((2 : ℚ) ^ 2) 30) :=
  ⟨(scale_retry_exhaustion (fun _ => false) 5 3 (fun _ => rfl)).1,
   (scale_retry_exhaustion (fun _ => false) 5 3 (fun _ => rfl)).2.2.2.2 2 (by norm_num)⟩


/-! ## C8: checkpoint round-trip -/

/-- Claim C8: for every policy state (empty, single-state or multi-state
table alike), loading the checkpoint produced by `save_model` reproduces
exactly the saved Q-table contents and the hyperparameters learning_rate,
discount_factor, epsilon, epsilon_min, epsilon_decay and n_actions, while
`load_model` raises a not-found error when the checkpoint file is absent. -/
theorem checkpoint_roundtrip (p p0 : QLearning) (createdAt : ℤ) (episodeCount : ℕ) :
    (∃ p2 : QLearning, loadModel p0 (some (saveModel p createdAt episodeCount)) = Except.ok p2 ∧
      p2.q_table = p.q_table ∧
      p2.learning_rate = p.learning_rate ∧
      p2.discount_factor = p.discount_factor ∧
      p2.epsilon = p.epsilon ∧
      p2.epsilon_min = p.epsilon_min ∧
      p2.epsilon_decay = p.epsilon_decay ∧
      p2.n_actions = p.n_actions) ∧
    loadModel p0 none = Except.error ("Model file not found") :=
  ⟨⟨{ p0 with
      q_table := p.q_table
      learning_rate := p.learning_rate
      discount_factor := p.discount_factor
      epsilon := p.epsilon
      epsilon_min := p.epsilon_min
      epsilon_decay := p.epsilon_decay
      n_actions := p.n_actions },
    rfl, rfl, rfl, rfl, rfl, rfl, rfl, rfl⟩, rfl⟩


/-! ## C1: the fuzzy-hybrid action selection -/

lemma foldl_max_zero (n : ℕ) : List.foldl max (0:ℚ) (List.replicate n 0) = 0 := by
  induction n with
  | zero => rfl
  | succ m ih => simp [List.replicate_succ, max_self, ih]

lemma foldl_min_zero (n : ℕ) : List.foldl min (0:ℚ) (List.replicate n 0) = 0 := by
  induction n with
  | zero => rfl
  | succ m ih => simp [List.replicate_succ, min_self, ih]

lemma listMax_replicate_zero (n : ℕ) : listMax (List.replicate n (0:ℚ)) = 0 := by
  cases n with
  | zero => rfl
  | succ m =>
      rw [List.replicate_succ]
      show List.foldl max (0:ℚ) (List.replicate m 0) = 0
      exact foldl_max_zero m

lemma listMin_replicate_zero (n : ℕ) : listMin (List.replicate n (0:ℚ)) = 0 := by
  cases n with
  | zero => rfl
  | succ m =>
      rw [List.replicate_succ]
      show List.foldl min (0:ℚ) (List.replicate m 0) = 0
      exact foldl_min_zero m

lemma argmaxIdx_replicate_zero : ∀ n : ℕ, argmaxIdx (List.replicate n (0:ℚ)) = 0
  | 0 => rfl
  | 1 => rfl
  | (m+2) => by
      rw [show List.replicate (m+2) (0:ℚ) = 0 :: 0 :: List.replicate m 0 from rfl]
      rw [show argmaxIdx ((0:ℚ) :: 0 :: List.replicate m 0) =
          (if (0:ℚ) < listMax (0 :: List.replicate m 0) then
            argmaxIdx ((0:ℚ) :: List.replicate m 0) + 1 else 0) from rfl]
      rw [show (0:ℚ) :: List.replicate m 0 = List.replicate (m+1) (0:ℚ) from rfl]
      rw [listMax_replicate_zero]
      norm_num

lemma influence_zero : influence (applyRules (fuzzify 0 0 0)) = 0 := by
  norm_num [influence, applyRules, scaleUpRaw, scaleDownRaw, noChangeRaw, fuzzify,
    cpuMembership, respMembership, trapezoidal]

lemma specQDist_replicate_zero (i : ℕ) : specQDist (List.replicate 100 (0:ℚ)) 100 i = 1/100 := by
  unfold specQDist
  rw [listMax_replicate_zero, listMin_replicate_zero]
  rw [if_pos (by norm_num)]
  norm_num

lemma gaussShape_pos (sigma center : ℝ) (i : ℕ) : 0 < gaussShape sigma center i := by
  unfold gaussShape
  exact Real.exp_pos _

/-- Claim C1 counterexample: at the observation (cpu 0, memory 0, response
time 0) with ε = 0 and an empty table, the code's `get_action` returns 0,
the argmax of the lazily inserted all-zero Q-vector.  The canonical blended
design of the spec (here with fuzzy_weight 1/2 and bandwidth 10) yields a
combined distribution strictly larger at index 49 — the index nearest the
preference center (influence+1)/2·99 = 49.5 — than at index 0, so 0 is not
an argmax of the combined distribution and the code does not behave as the
blended design. -/
theorem hybrid_blend_counterexample :
    (getActionF ⟨100, 1/10, 95/100, 0, 1/10, 9/10, fun _ => none⟩ (1/2) 7 ⟨0, 0, some 0, 0⟩).1 = 0 ∧
    specCombined (1/2) 10
        ((specCenter (influence (applyRules (fuzzify 0 0 0))) 100 : ℚ) : ℝ)
        (List.replicate 100 0) 100 49 >
      specCombined (1/2) 10
        ((specCenter (influence (applyRules (fuzzify 0 0 0))) 100 : ℚ) : ℝ)
        (List.replicate 100 0) 100 0 := by
  constructor
  · have hself := lazyInitF_self (fun _ => none : FQTable)
      (getStateKeyF ⟨0, 0, some 0, 0⟩) 100
    simp only [getActionF, hself]
    rw [if_neg (by norm_num : ¬ (1/2 : ℚ) < 0)]
    simp only [Option.getD_none, Option.getD_some]
    exact argmaxIdx_replicate_zero 100
  · have hc : specCenter (influence (applyRules (fuzzify 0 0 0))) 100 = 99/2 := by
      rw [influence_zero]
      norm_num [specCenter]
    rw [hc]
    have hcast : (((99:ℚ)/2 : ℚ) : ℝ) = 99/2 := by norm_num
    rw [hcast]
    have hG : 0 < ∑ j ∈ Finset.range 100, gaussShape 10 (99/2) j :=
      Finset.sum_pos (fun j _ => gaussShape_pos _ _ _) ⟨0, Finset.mem_range.2 (by norm_num)⟩
    have hfd_pos : ∀ j : ℕ, 0 < specFuzzyDist 10 (99/2) 100 j := by
      intro j
      unfold specFuzzyDist
      exact div_pos (gaussShape_pos _ _ _) hG
    have hraw_pos : ∀ j : ℕ, 0 < specCombinedRaw (1/2) 10 (99/2) (List.replicate 100 0) 100 j := by
      intro j
      unfold specCombinedRaw
      rw [specQDist_replicate_zero j]
      have h1 := hfd_pos j
      have h2 : ((1/100 : ℚ) : ℝ) = 1/100 := by norm_num
      rw [h2]
      linarith
    have hZ : 0 < ∑ j ∈ Finset.range 100,
        specCombinedRaw (1/2) 10 (99/2) (List.replicate 100 0) 100 j :=
      Finset.sum_pos (fun j _ => hraw_pos j) ⟨0, Finset.mem_range.2 (by norm_num)⟩
    unfold specCombined
    apply div_lt_div_of_pos_right ?_ hZ
    unfold specCombinedRaw
    rw [specQDist_replicate_zero 0, specQDist_replicate_zero 49]
    have h49 : gaussShape 10 (99/2) 0 < gaussShape 10 (99/2) 49 := by
      unfold gaussShape
      apply Real.exp_lt_exp.2
      push_cast
      norm_num
    have hfd : specFuzzyDist 10 (99/2) 100 0 < specFuzzyDist 10 (99/2) 100 49 := by
      unfold specFuzzyDist
      exact div_lt_div_of_pos_right h49 hG
    linarith

/-- Claim C1 amended: `QLearningFuzzy.get_action` performs no blended
computation at all.  It is plain ε-greedy on the stored Q-vector for the
fuzzy-categorical state key: with probability ε it returns the uniformly
drawn random index, otherwise the argmax (first maximal index) of the
lazily zero-initialized Q-vector; the table gains at most that zero
entry. -/
theorem hybrid_getAction_eps_greedy (p : QLearningFuzzy) (r : ℚ) (ri : ℕ) (o : Obs) :
    (r < p.epsilon → (getActionF p r ri o).1 = ri) ∧
    (¬ r < p.epsilon → (getActionF p r ri o).1 =
      argmaxIdx ((p.q_table (getStateKeyF o)).getD (List.replicate p.n_actions 0))) ∧
    (getActionF p r ri o).2.q_table (getStateKeyF o) =
      some ((p.q_table (getStateKeyF o)).getD (List.replicate p.n_actions 0)) := by
  have hself := lazyInitF_self p.q_table (getStateKeyF o) p.n_actions
  refine ⟨?_, ?_, ?_⟩
  · intro h
    simp only [getActionF, if_pos h]
  · intro h
    simp only [getActionF, hself, if_neg h, Option.getD_some]
  · simp only [getActionF, hself]

/-- Witness for C1: with ε = 1/2 a draw r = 1/4 < ε returns the random
index 7, and a draw r = 3/4 ≥ ε returns the argmax of the zero vector. -/
theorem hybrid_getAction_eps_greedy_witness :
    (getActionF ⟨100, 1/10, 95/100, 1/2, 1/10, 9/10, fun _ => none⟩ (1/4) 7 ⟨0, 0, some 0, 0⟩).1 = 7 ∧
    (getActionF ⟨100, 1/10, 95/100, 1/2, 1/10, 9/10, fun _ => none⟩ (3/4) 7 ⟨0, 0, some 0, 0⟩).1 =
      argmaxIdx ((((fun _ => none) : FQTable) (getStateKeyF ⟨0, 0, some 0, 0⟩)).getD
        (List.replicate 100 0)) :=
  ⟨(hybrid_getAction_eps_greedy ⟨100, 1/10, 95/100, 1/2, 1/10, 9/10, fun _ => none⟩
      (1/4) 7 ⟨0, 0, some 0, 0⟩).1 (by norm_num),
   (hybrid_getAction_eps_greedy ⟨100, 1/10, 95/100, 1/2, 1/10, 9/10, fun _ => none⟩
      (3/4) 7 ⟨0, 0, some 0, 0⟩).2.1 (by norm_num)⟩

end Autoscale
